import Mathlib

/-!
The request handler of s3proxy, `cmd/s3proxy/main.go`.

A shallow embedding of `handler.ServeHTTP` and of the parts of its environment it talks
to (the object store, the response writer, the body stream, the clock format), followed
by the properties of the handler that the specification states.

Conventions of the embedding

* The handler is a pure function from its inputs (handler configuration, environment,
  response writer, request) to the final `World`: what was written to the response, what
  was asked of the object store, how often the body was closed, what was printed.
* The two `for` loops are unbounded in Go.  Here each takes an iteration budget `fuel`;
  a loop that exhausts it stops with `Ctl.spin`, and then the handler has not returned.
* `int` is the 64-bit Go `int`, so `int(*out.ContentLength)` (an `int64`) keeps the value.
* `totalRead` and `totalWritten` are written but never read in the source; they are left
  out.
-/

namespace S3Proxy

/-! ## Constants -/

/-- Go `sizeKiB`. -/
def sizeKiB : Int := 1024

/-- Go `sizeMiB`. -/
def sizeMiB : Int := 1024 * sizeKiB

/-- Go `http.StatusNotFound`. -/
def StatusNotFound : Nat := 404

/-- Go `http.StatusNotModified`. -/
def StatusNotModified : Nat := 304

/-- Go `http.StatusOK`, the status `Write` sends when none was written before. -/
def StatusOK : Nat := 200

/-- Go `s3.ErrCodeNoSuchKey`. -/
def ErrCodeNoSuchKey : String := "NoSuchKey"

/-- Length of `readBuf`, `make([]byte, 16384)`. -/
def readBufLen : Nat := 16384

/-! ## Data -/

/-- One byte of an object body. -/
abbrev Byte := UInt8

/-- An instant (Go `time.Time`), as a position on the time line. `Equal` is `=`,
`Before` is `<`. -/
abbrev Time := Int

/-- Go `handler`. -/
structure handler where
  awsAccessKey : String
  awsSecretKey : String
  awsBucket : String
  awsEndpoint : String
deriving DecidableEq, Repr

/-- Go `newHandler`. -/
def newHandler (awsAccessKey awsSecretKey awsBucket awsHostname : String) : handler :=
  { awsAccessKey := awsAccessKey
    awsSecretKey := awsSecretKey
    awsBucket := awsBucket
    awsEndpoint := awsHostname }

/-- The error half of a `Read` result: `none` is Go `nil`. -/
inductive ReadErr where
  | EOF
  | other (msg : String)
deriving DecidableEq, Repr

/-- What the body stream has in store for one `Read`: some bytes and the error returned
with them. -/
structure Segment where
  data : List Byte
  err : Option ReadErr
deriving DecidableEq, Repr

/-- The object body `out.Body` (an `io.ReadCloser`): the segments it will deliver, in
order. Once they are used up every further `Read` returns `0, io.EOF`. -/
abbrev Body := List Segment

/-- One call `objReader.Read(readBuf)` with `len(readBuf) = cap`. `objReader` is a
`bufio.Reader` with the default 4096-byte buffer; since `cap = 16384` is not smaller and
the buffer is never filled, `bufio.Reader.Read` hands the call to `out.Body.Read`
unchanged. A read returns at most `cap` bytes: a longer segment is delivered in pieces,
the error with the last piece. Result: the bytes `readBuf[:readN]`, `readErr`, and the
rest of the stream. -/
def Body.Read (cap : Nat) : Body → List Byte × Option ReadErr × Body
  | [] => ([], some ReadErr.EOF, [])
  | s :: rest =>
    if s.data.length ≤ cap then (s.data, s.err, rest)
    else (s.data.take cap, none, { s with data := s.data.drop cap } :: rest)

/-- Go `s3.GetObjectOutput`, the fields the handler reads. A `nil` pointer is `none`. -/
structure GetObjectOutput where
  ContentType : Option String
  ContentLength : Option Int
  ContentDisposition : Option String
  LastModified : Option Time
  Body : Body
deriving DecidableEq, Repr

/-- The `err` of `client.GetObject`. `Code` is `some c` when the error is an
`awserr.Error` with `Code() = c`, and `none` when the type assertion fails. `text` is
what `%s` prints. -/
structure FetchError where
  Code : Option String
  text : String
deriving DecidableEq, Repr

/-- Go `http.Header`: name and value pairs, one value per name as the handler only uses
`Set` and `Get`. Names are kept as the source writes them. -/
abbrev Header := List (String × String)

/-- Go `Header.Set`. -/
def Header.Set (h : Header) (key value : String) : Header :=
  (key, value) :: h.filter (fun kv => kv.1 ≠ key)

/-- Go `Header.Get`: the value, or `""` when there is none. -/
def Header.Get (h : Header) (key : String) : String :=
  (h.lookup key).getD ""

/-- Go `http.Request`, the fields the handler reads: `r.URL.Path` and `r.Header`. -/
structure Request where
  Path : String
  Header : Header
deriving DecidableEq, Repr

/-- Everything outside the handler that it calls.
* `NewSession endpoint` is `session.NewSession`: `some e` is the error, `none` success.
* `GetObject bucket key` is `client.GetObject`.
* `Parse` is `time.Parse(http.TimeFormat, ·)`, `none` when it returns an error.
* `Format` is `t.Format(http.TimeFormat)`. -/
structure Env where
  NewSession : String → Option String
  GetObject : String → String → Except FetchError GetObjectOutput
  Parse : String → Option Time
  Format : Time → String

/-- The `io.Writer` half of an `http.ResponseWriter` over connection states `σ`:
`Write c p` returns the count `writeN`, the error (`none` is `nil`) and the next state. -/
structure ResponseWriter (σ : Type) where
  Write : σ → List Byte → Nat × Option String × σ

/-- Everything observable once the handler has run.
* `status`: the status line sent, `none` while neither `WriteHeader` nor `Write` ran.
* `header`: `w.Header()`.
* `wire`: the bytes the writer accepted, in order.
* `conn`: the writer state.
* `fetched`: the `(bucket, key)` of each `GetObject` call.
* `closed`: how many times `out.Body.Close()` ran.
* `stdout`: the `fmt.Printf` output.
* `returned`: whether `ServeHTTP` has returned. -/
structure World (σ : Type) where
  status : Option Nat
  header : Header
  wire : List Byte
  conn : σ
  fetched : List (String × String)
  closed : Nat
  stdout : List String
  returned : Bool

/-- The world at the call of `ServeHTTP`. -/
def World.fresh {σ : Type} (conn : σ) : World σ :=
  { status := none, header := [], wire := [], conn := conn, fetched := [], closed := 0,
    stdout := [], returned := false }

/-- Go `w.WriteHeader(code)`: the first status written stands. -/
def World.WriteHeader {σ : Type} (w : World σ) (code : Nat) : World σ :=
  match w.status with
  | some _ => w
  | none => { w with status := some code }

/-- Go `w.Header().Set(key, value)`. -/
def World.SetHeader {σ : Type} (w : World σ) (key value : String) : World σ :=
  { w with header := w.header.Set key value }

/-- Go `fmt.Printf`. -/
def World.Printf {σ : Type} (w : World σ) (line : String) : World σ :=
  { w with stdout := w.stdout ++ [line] }

/-- Go `w.Write(p)`: sends status 200 first when no status was written, then hands `p` to
the writer, which accepts the first `writeN` bytes. -/
def World.Write {σ : Type} (W : ResponseWriter σ) (w : World σ) (p : List Byte) :
    Nat × Option String × World σ :=
  let r := W.Write w.conn p
  (r.1, r.2.1,
    { w.WriteHeader StatusOK with conn := r.2.2, wire := w.wire ++ p.take r.1 })

/-- The status the client sees: net/http sends 200 for a handler that returns without
having written a status. -/
def World.clientStatus {σ : Type} (w : World σ) : Nat :=
  w.status.getD StatusOK

/-- Go `int(x)` for an `int64` value `x`, on a target whose `int` has 64 bits. -/
def int (x : Int) : Int :=
  x

/-- Go `strconv.Itoa`. -/
def Itoa (n : Int) : String :=
  toString n

/-- How a loop was left: by `break`, by a `return` of the handler, or not at all within
the iteration budget. -/
inductive Ctl where
  | brk
  | ret
  | spin
deriving DecidableEq, Repr

/-! ## The handler -/

/-- The inner loop (source lines 156 to 170) for the chunk `readBuf[:readN]`, entered with
the given `readWritten`. -/
def writeLoop {σ : Type} (W : ResponseWriter σ) :
    Nat → World σ → List Byte → Nat → Ctl × World σ
  | 0, w, _, _ => (Ctl.spin, w)
  | fuel + 1, w, chunk, readWritten =>
    match World.Write W w (chunk.drop readWritten) with
    | (_, some err, w1) => (Ctl.ret, w1.Printf ("Error writing: " ++ err ++ "\n"))
    | (writeN, none, w1) =>
      if readWritten + writeN ≥ chunk.length then (Ctl.brk, w1)
      else writeLoop W fuel w1 chunk (readWritten + writeN)

/-- The outer loop (source lines 148 to 175). -/
def relay {σ : Type} (W : ResponseWriter σ) : Nat → World σ → Body → Ctl × World σ
  | 0, w, _ => (Ctl.spin, w)
  | fuel + 1, w, body =>
    match body.Read readBufLen with
    | (_, some (ReadErr.other err), _) =>
      (Ctl.ret, w.Printf ("Error reading: " ++ err ++ "\n"))
    | (chunk, readErr, rest) =>
      match writeLoop W fuel w chunk 0 with
      | (Ctl.brk, w1) =>
        if readErr = some ReadErr.EOF then (Ctl.brk, w1) else relay W fuel w1 rest
      | stop => stop

/-- Source lines 108 to 125: the headers taken from the object. -/
def objectHeaders {σ : Type} (out : GetObjectOutput) (w : World σ) : World σ :=
  let contentLength : Int := 0
  let w := match out.ContentType with
    | some ct => w.SetHeader "content-type" ct
    | none => w
  let (contentLength, w) := match out.ContentLength with
    | some n => (int n, w.SetHeader "content-length" (Itoa (int n)))
    | none => (contentLength, w)
  match out.ContentDisposition with
  | some cd => w.SetHeader "content-disposition" cd
  | none =>
    if contentLength ≥ 50 * sizeMiB then w.SetHeader "content-disposition" "attachment"
    else w

/-- Source lines 131 to 140: whether the handler answers 304 for an object last modified
at `lastModified`. -/
def notModified (env : Env) (r : Request) (lastModified : Time) : Bool :=
  let ifModSinceRaw := r.Header.Get "if-modified-since"
  if ifModSinceRaw ≠ "" then
    match env.Parse ifModSinceRaw with
    | some ifModSince => decide (ifModSince = lastModified) || decide (ifModSince < lastModified)
    | none => false
  else false

/-- Source lines 108 to 175: what the handler does with a fetched object, up to the
deferred close. -/
def serveObject {σ : Type} (env : Env) (W : ResponseWriter σ) (fuel : Nat) (r : Request)
    (out : GetObjectOutput) (w : World σ) : Ctl × World σ :=
  let w := objectHeaders out w
  match out.LastModified with
  | some lastModified =>
    let w := w.SetHeader "last-modified" (env.Format lastModified)
    if notModified env r lastModified then (Ctl.ret, w.WriteHeader StatusNotModified)
    else relay W fuel w out.Body
  | none => relay W fuel w out.Body

/-- The end of `ServeHTTP` after `defer out.Body.Close()`: when the body of the function
is left, by `return` or by falling off the end of the loop, the body is closed and the
handler has returned. -/
def deferClose {σ : Type} : Ctl × World σ → World σ
  | (Ctl.spin, w) => w
  | (_, w) => { w with closed := w.closed + 1, returned := true }

/-- Go `(h *handler) ServeHTTP(w, r)`, run from a fresh response on connection state
`conn`. -/
def ServeHTTP {σ : Type} (h : handler) (env : Env) (W : ResponseWriter σ) (fuel : Nat)
    (conn : σ) (r : Request) : World σ :=
  let w := World.fresh conn
  let requestKey := r.Path
  if requestKey = "/" then
    { w.WriteHeader StatusNotFound with returned := true }
  else
    match env.NewSession h.awsEndpoint with
    | some err =>
      { w.Printf ("Error making session: " ++ err ++ "\n") with returned := true }
    | none =>
      let w := { w with fetched := w.fetched ++ [(h.awsBucket, r.Path)] }
      match env.GetObject h.awsBucket r.Path with
      | Except.error err =>
        if err.Code = some ErrCodeNoSuchKey then
          { w.WriteHeader StatusNotFound with returned := true }
        else
          { w.Printf ("Error downloading: " ++ err.text ++ "\n") with returned := true }
      | Except.ok out => deferClose (serveObject env W fuel r out w)

/-! ## Sample environments -/

/-- A writer that accepts every write whole. -/
def fullWriter : ResponseWriter Unit :=
  { Write := fun _ p => (p.length, none, ()) }

/-- A writer that accepts at most one byte per call. -/
def oneByteWriter : ResponseWriter Unit :=
  { Write := fun _ p => (min 1 p.length, none, ()) }

/-- A writer whose connection breaks after `n` more bytes: it accepts what still fits and
reports an error when a write does not fit. -/
def brokenWriter : ResponseWriter Nat :=
  { Write := fun room p =>
      if p.length ≤ room then (p.length, none, room - p.length)
      else (room, some "broken pipe", 0) }

/-- The instants used in the examples below, as seconds since 1970-01-01T00:00:00Z,
with their HTTP dates. -/
def sampleDates : List (String × Time) :=
  [ ("Sat, 31 Dec 2022 23:59:59 GMT", 1672531199),
    ("Sun, 01 Jan 2023 00:00:00 GMT", 1672531200),
    ("Sun, 01 Jan 2023 00:00:01 GMT", 1672531201) ]

/-- A `time.Parse(http.TimeFormat, ·)` restricted to `sampleDates`; other strings used
below are not HTTP dates. -/
def sampleParse (s : String) : Option Time :=
  sampleDates.lookup s

/-- A `Format(http.TimeFormat)` restricted to `sampleDates`. -/
def sampleFormat (t : Time) : String :=
  ((sampleDates.find? (fun e => e.2 = t)).map Prod.fst).getD ""

/-- A store holding the listed objects under their keys in every bucket; any other key
is answered with `NoSuchKey`, except `/forbidden` which is answered with `AccessDenied`. -/
def sampleStore (objs : List (String × GetObjectOutput)) (_bucket key : String) :
    Except FetchError GetObjectOutput :=
  match objs.lookup key with
  | some out => Except.ok out
  | none =>
    if key = "/forbidden" then
      Except.error { Code := some "AccessDenied", text := "AccessDenied: Access Denied" }
    else
      Except.error { Code := some ErrCodeNoSuchKey,
                     text := "NoSuchKey: The specified key does not exist." }

/-- An environment over `sampleStore` where sessions are created without error. -/
def sampleEnv (objs : List (String × GetObjectOutput)) : Env :=
  { NewSession := fun _ => none
    GetObject := sampleStore objs
    Parse := sampleParse
    Format := sampleFormat }

/-- The environment of `sampleEnv` where `session.NewSession` fails. -/
def noSessionEnv (objs : List (String × GetObjectOutput)) : Env :=
  { sampleEnv objs with NewSession := fun _ => some "failed to load shared config" }

/-- The handler of the examples. -/
def sampleHandler : handler :=
  newHandler "key" "secret" "bucket" "https://s3.us-east-1.amazonaws.com"

/-- A five-byte object last modified at 2023-01-01T00:00:00Z, delivered in two reads
followed by a bare end of input. -/
def sampleObject : GetObjectOutput :=
  { ContentType := some "text/plain"
    ContentLength := some 5
    ContentDisposition := none
    LastModified := some 1672531200
    Body := [⟨[104, 101, 108], none⟩, ⟨[108, 111], none⟩, ⟨[], some ReadErr.EOF⟩] }

/-- The object of the example request `/images/logo.png`: 2048 bytes, delivered in one
read together with end of input. -/
def logoObject : GetObjectOutput :=
  { ContentType := some "image/png"
    ContentLength := some 2048
    ContentDisposition := none
    LastModified := some 1672531200
    Body := [⟨List.replicate 2048 7, some ReadErr.EOF⟩] }

/-- A request for `path` carrying the given `if-modified-since` value. -/
def conditionalGet (path since : String) : Request :=
  { Path := path, Header := [("if-modified-since", since)] }

/-- A request for `path` without headers. -/
def plainGet (path : String) : Request :=
  { Path := path, Header := [] }

/-! ## What the specification talks about -/

/-- The byte sequence a body delivers before its first error or end of input. -/
def Body.bytes : Body → List Byte
  | [] => []
  | s :: rest => s.data ++ (if s.err = none then Body.bytes rest else [])

/-- The body ends with end of input and no read error comes before it. -/
def Body.endsClean : Body → Bool
  | [] => true
  | s :: rest =>
    match s.err with
    | none => Body.endsClean rest
    | some ReadErr.EOF => true
    | some (ReadErr.other _) => false

/-- An upper bound on the reads a body can answer before it is used up. -/
def Body.weight : Body → Nat
  | [] => 0
  | s :: rest => s.data.length + 1 + Body.weight rest

/-- The writer never returns an error and takes at least one byte of a non-empty write. -/
def ResponseWriter.Accepting {σ : Type} (W : ResponseWriter σ) : Prop :=
  ∀ (c : σ) (p : List Byte), (W.Write c p).2.1 = none ∧ (p ≠ [] → 1 ≤ (W.Write c p).1)

/-- The writer takes at least one byte of a non-empty write whenever it returns no error. -/
def ResponseWriter.Progressing {σ : Type} (W : ResponseWriter σ) : Prop :=
  ∀ (c : σ) (p : List Byte), (W.Write c p).2.1 = none → p ≠ [] → 1 ≤ (W.Write c p).1

/-- The request reaches the object: the path is not the root, the session is created and
`GetObject` returns `out`. -/
def Found (h : handler) (env : Env) (r : Request) (out : GetObjectOutput) : Prop :=
  r.Path ≠ "/" ∧ env.NewSession h.awsEndpoint = none ∧
    env.GetObject h.awsBucket r.Path = Except.ok out

/-- The part of a world the loops leave alone: headers, fetches, closes and the return
flag stay, and the status only goes from unset to 200. -/
def Frame {σ : Type} (w w1 : World σ) : Prop :=
  w1.header = w.header ∧ w1.fetched = w.fetched ∧ w1.closed = w.closed ∧
    w1.returned = w.returned ∧
    (w1.status = w.status ∨ (w.status = none ∧ w1.status = some StatusOK))

/-- The world right after a successful `GetObject`: nothing written, one fetch made. -/
def World.fetchedOnce {σ : Type} (h : handler) (conn : σ) (r : Request) : World σ :=
  { World.fresh conn with fetched := [(h.awsBucket, r.Path)] }

/-- The world when the handler reaches the conditional check (source line 131) or, for an
object without `LastModified`, the loop: all object headers are set. -/
def World.staged {σ : Type} (env : Env) (out : GetObjectOutput) (w : World σ) : World σ :=
  match out.LastModified with
  | some lastModified => (objectHeaders out w).SetHeader "last-modified" (env.Format lastModified)
  | none => objectHeaders out w

/-- Whether the handler answers 304 for this object and request. -/
def answers304 (env : Env) (r : Request) (out : GetObjectOutput) : Bool :=
  match out.LastModified with
  | some lastModified => notModified env r lastModified
  | none => false

/-! ## Lemmas on headers -/

theorem Header.lookup_filter_ne (h : Header) (key k : String) (hk : k ≠ key) :
    (h.filter (fun kv => kv.1 ≠ key)).lookup k = h.lookup k := by
  induction h with
  | nil => rfl
  | cons kv t ih =>
    obtain ⟨a, b⟩ := kv
    by_cases ha : a = key
    · subst ha
      have hka : (k == a) = false := by simpa using hk
      simpa [List.filter, List.lookup, hka] using ih
    · by_cases hka : k = a
      · simp [List.filter, List.lookup, ha, hka]
      · have hka2 : (k == a) = false := by simpa using hka
        simpa [List.filter, List.lookup, ha, hka2] using ih

theorem Header.lookup_Set (h : Header) (key value k : String) :
    (Header.Set h key value).lookup k = if k = key then some value else h.lookup k := by
  unfold Header.Set
  by_cases hk : k = key
  · subst hk
    simp [List.lookup]
  · have hne : (k == key) = false := by simpa using hk
    simp only [List.lookup, hne, if_neg hk]
    exact Header.lookup_filter_ne h key k hk

/-! ## Lemmas on the loops -/

theorem Frame.refl {σ : Type} (w : World σ) : Frame w w :=
  ⟨rfl, rfl, rfl, rfl, Or.inl rfl⟩

theorem Frame.trans {σ : Type} {w w1 w2 : World σ} (h1 : Frame w w1) (h2 : Frame w1 w2) :
    Frame w w2 := by
  obtain ⟨a1, b1, c1, d1, e1⟩ := h1
  obtain ⟨a2, b2, c2, d2, e2⟩ := h2
  refine ⟨a2.trans a1, b2.trans b1, c2.trans c1, d2.trans d1, ?_⟩
  rcases e1 with e1 | ⟨e1, e1'⟩
  · rcases e2 with e2 | ⟨e2, e2'⟩
    · exact Or.inl (e2.trans e1)
    · exact Or.inr ⟨e1.symm.trans e2, e2'⟩
  · rcases e2 with e2 | ⟨e2, _⟩
    · exact Or.inr ⟨e1, e2.trans e1'⟩
    · rw [e1'] at e2
      cases e2

theorem Frame.Printf {σ : Type} (w : World σ) (line : String) : Frame w (w.Printf line) :=
  ⟨rfl, rfl, rfl, rfl, Or.inl rfl⟩

theorem Frame.Write {σ : Type} (W : ResponseWriter σ) (w : World σ) (p : List Byte) :
    Frame w (World.Write W w p).2.2 := by
  refine ⟨?_, ?_, ?_, ?_, ?_⟩
  all_goals cases hs : w.status <;> simp [World.Write, World.WriteHeader, hs]

theorem writeLoop_frame {σ : Type} (W : ResponseWriter σ) (fuel : Nat) :
    ∀ (w : World σ) (chunk : List Byte) (k : Nat), Frame w (writeLoop W fuel w chunk k).2 := by
  induction fuel with
  | zero =>
    intro w chunk k
    exact Frame.refl w
  | succ n ih =>
    intro w chunk k
    have hf := Frame.Write W w (chunk.drop k)
    unfold writeLoop
    generalize World.Write W w (chunk.drop k) = res at hf
    obtain ⟨writeN, err, w1⟩ := res
    cases err with
    | some e => exact hf.trans (Frame.Printf w1 _)
    | none =>
      simp only
      split
      · exact hf
      · exact hf.trans (ih w1 chunk (k + writeN))

theorem writeLoop_succ {σ : Type} (W : ResponseWriter σ) (n : Nat) (w : World σ)
    (chunk : List Byte) (k : Nat) :
    writeLoop W (n + 1) w chunk k =
      match World.Write W w (chunk.drop k) with
      | (_, some err, w1) => (Ctl.ret, w1.Printf ("Error writing: " ++ err ++ "\n"))
      | (writeN, none, w1) =>
        if k + writeN ≥ chunk.length then (Ctl.brk, w1)
        else writeLoop W n w1 chunk (k + writeN) := by
  rw [writeLoop]

theorem relay_readError {σ : Type} (W : ResponseWriter σ) (n : Nat) (w : World σ)
    (body rest : Body) (chunk : List Byte) (msg : String)
    (hr : body.Read readBufLen = (chunk, some (ReadErr.other msg), rest)) :
    relay W (n + 1) w body = (Ctl.ret, w.Printf ("Error reading: " ++ msg ++ "\n")) := by
  rw [relay, hr]

theorem relay_readEOF {σ : Type} (W : ResponseWriter σ) (n : Nat) (w : World σ)
    (body rest : Body) (chunk : List Byte)
    (hr : body.Read readBufLen = (chunk, some ReadErr.EOF, rest)) :
    relay W (n + 1) w body =
      match writeLoop W n w chunk 0 with
      | (Ctl.brk, w1) => (Ctl.brk, w1)
      | stop => stop := by
  rw [relay, hr]
  simp

theorem relay_readMore {σ : Type} (W : ResponseWriter σ) (n : Nat) (w : World σ)
    (body rest : Body) (chunk : List Byte)
    (hr : body.Read readBufLen = (chunk, none, rest)) :
    relay W (n + 1) w body =
      match writeLoop W n w chunk 0 with
      | (Ctl.brk, w1) => relay W n w1 rest
      | stop => stop := by
  rw [relay, hr]
  simp

theorem relay_frame {σ : Type} (W : ResponseWriter σ) (fuel : Nat) :
    ∀ (w : World σ) (body : Body), Frame w (relay W fuel w body).2 := by
  induction fuel with
  | zero =>
    intro w body
    exact Frame.refl w
  | succ n ih =>
    intro w body
    rcases hr : body.Read readBufLen with ⟨chunk, readErr, rest⟩
    have hf := writeLoop_frame W n w chunk 0
    cases readErr with
    | none =>
      rw [relay_readMore W n w body rest chunk hr]
      generalize writeLoop W n w chunk 0 = res at hf
      obtain ⟨c, w1⟩ := res
      cases c with
      | brk => exact hf.trans (ih w1 rest)
      | ret => exact hf
      | spin => exact hf
    | some e =>
      cases e with
      | other msg =>
        rw [relay_readError W n w body rest chunk msg hr]
        exact Frame.Printf w _
      | EOF =>
        rw [relay_readEOF W n w body rest chunk hr]
        generalize writeLoop W n w chunk 0 = res at hf
        obtain ⟨c, w1⟩ := res
        cases c with
        | brk => exact hf
        | ret => exact hf
        | spin => exact hf

/-! ## Lemmas on `Body.Read` -/

theorem Body.Read_nil (cap : Nat) :
    Body.Read cap [] = ([], some ReadErr.EOF, []) := rfl

theorem Body.Read_cons (cap : Nat) (s : Segment) (rest : Body) :
    Body.Read cap (s :: rest) =
      if s.data.length ≤ cap then (s.data, s.err, rest)
      else (s.data.take cap, none, { s with data := s.data.drop cap } :: rest) := rfl

theorem Body.Read_length (cap : Nat) (body : Body) : (body.Read cap).1.length ≤ cap := by
  cases body with
  | nil => simp [Body.Read_nil]
  | cons s rest =>
    rw [Body.Read_cons]
    split
    · assumption
    · simp

theorem Body.Read_bytes (cap : Nat) (body rest : Body) (chunk : List Byte)
    (err : Option ReadErr) (hr : body.Read cap = (chunk, err, rest)) :
    body.bytes = chunk ++ (if err = none then rest.bytes else []) := by
  cases body with
  | nil =>
    simp only [Body.Read_nil, Prod.mk.injEq] at hr
    obtain ⟨h1, h2, _⟩ := hr
    subst h1 h2
    simp [Body.bytes]
  | cons s rest0 =>
    rw [Body.Read_cons] at hr
    split at hr
    · simp only [Prod.mk.injEq] at hr
      obtain ⟨h1, h2, h3⟩ := hr
      subst h1 h2 h3
      rfl
    · simp only [Prod.mk.injEq] at hr
      obtain ⟨h1, h2, h3⟩ := hr
      subst h1 h2 h3
      simp only [Body.bytes, if_true]
      rw [← List.append_assoc, List.take_append_drop]

theorem Body.Read_endsClean (cap : Nat) (body rest : Body) (chunk : List Byte)
    (err : Option ReadErr) (hr : body.Read cap = (chunk, err, rest))
    (hc : body.endsClean = true) :
    (∀ msg, err ≠ some (ReadErr.other msg)) ∧ (err = none → rest.endsClean = true) := by
  cases body with
  | nil =>
    simp only [Body.Read_nil, Prod.mk.injEq] at hr
    obtain ⟨_, h2, _⟩ := hr
    subst h2
    simp
  | cons s rest0 =>
    rw [Body.Read_cons] at hr
    split at hr
    · simp only [Prod.mk.injEq] at hr
      obtain ⟨_, h2, h3⟩ := hr
      subst h2 h3
      rcases hse : s.err with _ | e
      · simpa [Body.endsClean, hse] using hc
      · cases e with
        | EOF => simp
        | other m => simp [Body.endsClean, hse] at hc
    · simp only [Prod.mk.injEq] at hr
      obtain ⟨_, h2, h3⟩ := hr
      subst h2 h3
      simpa [Body.endsClean] using hc

theorem Body.Read_weight (cap : Nat) (hcap : 0 < cap) (body rest : Body)
    (chunk : List Byte) (hr : body.Read cap = (chunk, none, rest)) :
    rest.weight < body.weight := by
  cases body with
  | nil => simp [Body.Read_nil] at hr
  | cons s rest0 =>
    rw [Body.Read_cons] at hr
    split at hr
    · simp only [Prod.mk.injEq] at hr
      obtain ⟨_, _, h3⟩ := hr
      subst h3
      simp only [Body.weight]
      omega
    · rename_i hlen
      simp only [Prod.mk.injEq] at hr
      obtain ⟨_, _, h3⟩ := hr
      subst h3
      simp only [Body.weight, List.length_drop]
      omega

theorem Body.weight_single (data : List Byte) (err : Option ReadErr) :
    Body.weight [⟨data, err⟩] = data.length + 1 := rfl

theorem Body.bytes_single (data : List Byte) :
    Body.bytes [⟨data, some ReadErr.EOF⟩] = data := by
  simp [Body.bytes]

/-! ## The loops under a writer that makes progress -/

theorem writeLoop_accepting {σ : Type} (W : ResponseWriter σ) (hW : W.Accepting)
    (fuel : Nat) :
    ∀ (w : World σ) (chunk : List Byte) (k : Nat), chunk.length - k < fuel →
      ∃ w1, writeLoop W fuel w chunk k = (Ctl.brk, w1) ∧
        w1.wire = w.wire ++ chunk.drop k ∧ w1.stdout = w.stdout ∧
        w1.status = some (w.status.getD StatusOK) := by
  induction fuel with
  | zero =>
    intro w chunk k hk
    omega
  | succ n ih =>
    intro w chunk k hk
    rw [writeLoop_succ]
    obtain ⟨he, hn⟩ := hW w.conn (chunk.drop k)
    have hst : (World.Write W w (chunk.drop k)).2.2.status = some (w.status.getD StatusOK) := by
      cases hs : w.status <;> simp [World.Write, World.WriteHeader, hs]
    have hwire : (World.Write W w (chunk.drop k)).2.2.wire =
        w.wire ++ (chunk.drop k).take (W.Write w.conn (chunk.drop k)).1 := rfl
    have hout : (World.Write W w (chunk.drop k)).2.2.stdout = w.stdout := by
      cases hs : w.status <;> simp [World.Write, World.WriteHeader, hs]
    have hn1 : (World.Write W w (chunk.drop k)).1 = (W.Write w.conn (chunk.drop k)).1 := rfl
    have he1 : (World.Write W w (chunk.drop k)).2.1 = none := he
    generalize (W.Write w.conn (chunk.drop k)).1 = m at hn hwire hn1
    generalize World.Write W w (chunk.drop k) = res at hst hwire hout hn1 he1
    obtain ⟨writeN, err, w1⟩ := res
    simp only at hst hwire hout hn1 he1
    subst hn1 he1
    simp only
    split
    · rename_i hge
      refine ⟨w1, rfl, ?_, hout, hst⟩
      rw [hwire, List.take_of_length_le]
      simp only [List.length_drop]
      omega
    · rename_i hlt
      have hne : chunk.drop k ≠ [] := by
        intro h0
        have := congrArg List.length h0
        simp only [List.length_drop, List.length_nil] at this
        omega
      have h1 := hn hne
      obtain ⟨w2, e2, hw2, ho2, hs2⟩ := ih w1 chunk (k + writeN) (by omega)
      refine ⟨w2, e2, ?_, ho2.trans hout, ?_⟩
      · rw [hw2, hwire, List.append_assoc]
        congr 1
        rw [← List.drop_drop]
        exact List.take_append_drop writeN (chunk.drop k)
      · rw [hs2, hst]
        rfl

theorem relay_accepting {σ : Type} (W : ResponseWriter σ) (hW : W.Accepting) (fuel : Nat) :
    ∀ (w : World σ) (body : Body), body.endsClean = true →
      body.weight + readBufLen + 1 < fuel →
      ∃ w1, relay W fuel w body = (Ctl.brk, w1) ∧ w1.wire = w.wire ++ body.bytes ∧
        w1.stdout = w.stdout ∧ w1.status = some (w.status.getD StatusOK) := by
  induction fuel with
  | zero =>
    intro w body _ hf
    omega
  | succ n ih =>
    intro w body hc hf
    rcases hr : body.Read readBufLen with ⟨chunk, readErr, rest⟩
    have hlen : chunk.length ≤ readBufLen := by
      have := Body.Read_length readBufLen body
      rw [hr] at this
      exact this
    have hbytes := Body.Read_bytes readBufLen body rest chunk readErr hr
    obtain ⟨hno, hrest⟩ := Body.Read_endsClean readBufLen body rest chunk readErr hr hc
    obtain ⟨w1, e1, hw1, ho1, hs1⟩ := writeLoop_accepting W hW n w chunk 0 (by omega)
    simp only [List.drop_zero] at hw1
    cases readErr with
    | none =>
      have hwt := Body.Read_weight readBufLen (by decide) body rest chunk hr
      rw [relay_readMore W n w body rest chunk hr, e1]
      simp only
      obtain ⟨w2, e2, hw2, ho2, hs2⟩ := ih w1 rest (hrest rfl) (by omega)
      simp only [if_true] at hbytes
      refine ⟨w2, e2, ?_, ho2.trans ho1, ?_⟩
      · rw [hw2, hw1, hbytes, List.append_assoc]
      · rw [hs2, hs1]
        rfl
    | some e =>
      cases e with
      | other msg => exact absurd rfl (hno msg)
      | EOF =>
        rw [relay_readEOF W n w body rest chunk hr, e1]
        refine ⟨w1, rfl, ?_, ho1, hs1⟩
        rw [hw1, hbytes]
        simp

/-- Under a writer that makes progress the inner loop is left within `chunk.length - k + 1`
iterations. -/
theorem writeLoop_progressing {σ : Type} (W : ResponseWriter σ) (hW : W.Progressing)
    (fuel : Nat) :
    ∀ (w : World σ) (chunk : List Byte) (k : Nat), chunk.length - k < fuel →
      (writeLoop W fuel w chunk k).1 ≠ Ctl.spin := by
  induction fuel with
  | zero =>
    intro w chunk k hk
    omega
  | succ n ih =>
    intro w chunk k hk
    rw [writeLoop_succ]
    have hn := hW w.conn (chunk.drop k)
    have hn1 : (World.Write W w (chunk.drop k)).1 = (W.Write w.conn (chunk.drop k)).1 := rfl
    have he1 : (World.Write W w (chunk.drop k)).2.1 = (W.Write w.conn (chunk.drop k)).2.1 := rfl
    rw [← hn1, ← he1] at hn
    generalize World.Write W w (chunk.drop k) = res at hn
    obtain ⟨writeN, err, w1⟩ := res
    cases err with
    | some e => simp
    | none =>
      simp only
      split
      · simp
      · rename_i hlt
        have hne : chunk.drop k ≠ [] := by
          intro h0
          have := congrArg List.length h0
          simp only [List.length_drop, List.length_nil] at this
          omega
        have h1 := hn rfl hne
        simp only at h1
        exact ih w1 chunk (k + writeN) (by omega)

/-- Under a writer that makes progress the handler leaves the outer loop, whatever the
body does. -/
theorem relay_progressing {σ : Type} (W : ResponseWriter σ) (hW : W.Progressing)
    (fuel : Nat) :
    ∀ (w : World σ) (body : Body), body.weight + readBufLen + 1 < fuel →
      (relay W fuel w body).1 ≠ Ctl.spin := by
  induction fuel with
  | zero =>
    intro w body hf
    omega
  | succ n ih =>
    intro w body hf
    rcases hr : body.Read readBufLen with ⟨chunk, readErr, rest⟩
    have hlen : chunk.length ≤ readBufLen := by
      have := Body.Read_length readBufLen body
      rw [hr] at this
      exact this
    have h1 := writeLoop_progressing W hW n w chunk 0 (by omega)
    cases readErr with
    | none =>
      have hwt := Body.Read_weight readBufLen (by decide) body rest chunk hr
      rw [relay_readMore W n w body rest chunk hr]
      generalize writeLoop W n w chunk 0 = res at h1
      obtain ⟨c, w1⟩ := res
      cases c with
      | brk => exact ih w1 rest (by omega)
      | ret => simp
      | spin => exact absurd rfl h1
    | some e =>
      cases e with
      | other msg =>
        rw [relay_readError W n w body rest chunk msg hr]
        simp
      | EOF =>
        rw [relay_readEOF W n w body rest chunk hr]
        generalize writeLoop W n w chunk 0 = res at h1
        obtain ⟨c, w1⟩ := res
        cases c with
        | brk => simp
        | ret => simp
        | spin => exact absurd rfl h1

/-! ## Lemmas on the handler -/

theorem serveObject_eq {σ : Type} (env : Env) (W : ResponseWriter σ) (fuel : Nat)
    (r : Request) (out : GetObjectOutput) (w : World σ) :
    serveObject env W fuel r out w =
      if answers304 env r out = true then
        (Ctl.ret, (World.staged env out w).WriteHeader StatusNotModified)
      else relay W fuel (World.staged env out w) out.Body := by
  unfold serveObject answers304 World.staged
  cases out.LastModified with
  | none => simp
  | some t => simp

theorem ServeHTTP_root {σ : Type} (h : handler) (env : Env) (W : ResponseWriter σ)
    (fuel : Nat) (conn : σ) (r : Request) (hp : r.Path = "/") :
    ServeHTTP h env W fuel conn r =
      { (World.fresh conn).WriteHeader StatusNotFound with returned := true } := by
  unfold ServeHTTP
  simp [hp]

theorem ServeHTTP_noSession {σ : Type} (h : handler) (env : Env) (W : ResponseWriter σ)
    (fuel : Nat) (conn : σ) (r : Request) (msg : String) (hp : r.Path ≠ "/")
    (hs : env.NewSession h.awsEndpoint = some msg) :
    ServeHTTP h env W fuel conn r =
      { (World.fresh conn).Printf ("Error making session: " ++ msg ++ "\n") with
        returned := true } := by
  unfold ServeHTTP
  simp [hp, hs]

theorem ServeHTTP_fetchError {σ : Type} (h : handler) (env : Env) (W : ResponseWriter σ)
    (fuel : Nat) (conn : σ) (r : Request) (err : FetchError) (hp : r.Path ≠ "/")
    (hs : env.NewSession h.awsEndpoint = none)
    (hg : env.GetObject h.awsBucket r.Path = Except.error err) :
    ServeHTTP h env W fuel conn r =
      if err.Code = some ErrCodeNoSuchKey then
        { (World.fetchedOnce h conn r).WriteHeader StatusNotFound with returned := true }
      else
        { (World.fetchedOnce h conn r).Printf ("Error downloading: " ++ err.text ++ "\n") with
          returned := true } := by
  unfold ServeHTTP
  simp [hp, hs, hg, World.fetchedOnce, World.fresh]

theorem ServeHTTP_found {σ : Type} (h : handler) (env : Env) (W : ResponseWriter σ)
    (fuel : Nat) (conn : σ) (r : Request) (out : GetObjectOutput) (hf : Found h env r out) :
    ServeHTTP h env W fuel conn r =
      deferClose (serveObject env W fuel r out (World.fetchedOnce h conn r)) := by
  obtain ⟨hp, hs, hg⟩ := hf
  unfold ServeHTTP
  simp [hp, hs, hg, World.fetchedOnce, World.fresh]

theorem World.staged_rest {σ : Type} (env : Env) (out : GetObjectOutput) (w : World σ) :
    (World.staged env out w).status = w.status ∧ (World.staged env out w).wire = w.wire ∧
      (World.staged env out w).fetched = w.fetched ∧
      (World.staged env out w).closed = w.closed ∧
      (World.staged env out w).stdout = w.stdout ∧
      (World.staged env out w).returned = w.returned ∧
      (World.staged env out w).conn = w.conn := by
  unfold World.staged objectHeaders
  cases out.LastModified <;> cases out.ContentType <;> cases out.ContentLength <;>
    cases out.ContentDisposition <;> simp only [World.SetHeader] <;>
    first
      | (split <;> simp)
      | simp

theorem World.WriteHeader_rest {σ : Type} (w : World σ) (code : Nat) :
    (w.WriteHeader code).header = w.header ∧ (w.WriteHeader code).wire = w.wire ∧
      (w.WriteHeader code).fetched = w.fetched ∧ (w.WriteHeader code).closed = w.closed ∧
      (w.WriteHeader code).stdout = w.stdout ∧ (w.WriteHeader code).returned = w.returned := by
  unfold World.WriteHeader
  cases w.status <;> simp

theorem serveObject_frame {σ : Type} (env : Env) (W : ResponseWriter σ) (fuel : Nat)
    (r : Request) (out : GetObjectOutput) (w : World σ) :
    (serveObject env W fuel r out w).2.header = (World.staged env out w).header ∧
      (serveObject env W fuel r out w).2.fetched = w.fetched ∧
      (serveObject env W fuel r out w).2.closed = w.closed ∧
      (serveObject env W fuel r out w).2.returned = w.returned := by
  obtain ⟨_, _, hf, hc, _, hr, _⟩ := World.staged_rest env out w
  rw [serveObject_eq]
  split
  · obtain ⟨h1, _, h3, h4, _, h6⟩ :=
      World.WriteHeader_rest (World.staged env out w) StatusNotModified
    exact ⟨h1, h3.trans hf, h4.trans hc, h6.trans hr⟩
  · obtain ⟨h1, h2, h3, h4, _⟩ := relay_frame W fuel (World.staged env out w) out.Body
    exact ⟨h1, h2.trans hf, h3.trans hc, h4.trans hr⟩

theorem World.staged_lookup {σ : Type} (env : Env) (out : GetObjectOutput) (w : World σ)
    (hw : w.header = []) :
    (World.staged env out w).header.lookup "content-type" = out.ContentType ∧
      (World.staged env out w).header.lookup "content-length" = out.ContentLength.map Itoa ∧
      (World.staged env out w).header.lookup "content-disposition" =
        (match out.ContentDisposition with
          | some cd => some cd
          | none =>
            match out.ContentLength with
            | some n => if n ≥ 52428800 then some "attachment" else none
            | none => none) ∧
      (World.staged env out w).header.lookup "last-modified" =
        out.LastModified.map env.Format := by
  unfold World.staged objectHeaders
  rcases out.ContentLength with _ | n
  · rcases out.LastModified with _ | t <;> rcases out.ContentType with _ | ct <;>
      rcases out.ContentDisposition with _ | cd <;>
      simp [World.SetHeader, sizeMiB, sizeKiB, Header.lookup_Set, hw, int]
  · by_cases hn : (52428800 : Int) ≤ n <;>
      rcases out.LastModified with _ | t <;> rcases out.ContentType with _ | ct <;>
      rcases out.ContentDisposition with _ | cd <;>
      simp [World.SetHeader, sizeMiB, sizeKiB, Header.lookup_Set, hw, hn, int]

theorem deferClose_rest {σ : Type} (x : Ctl × World σ) :
    (deferClose x).status = x.2.status ∧ (deferClose x).header = x.2.header ∧
      (deferClose x).wire = x.2.wire ∧ (deferClose x).fetched = x.2.fetched ∧
      (deferClose x).stdout = x.2.stdout := by
  obtain ⟨c, w⟩ := x
  cases c <;> simp [deferClose]

theorem deferClose_left {σ : Type} (x : Ctl × World σ) (hx : x.1 ≠ Ctl.spin) :
    (deferClose x).closed = x.2.closed + 1 ∧ (deferClose x).returned = true := by
  obtain ⟨c, w⟩ := x
  cases c with
  | brk => simp [deferClose]
  | ret => simp [deferClose]
  | spin => exact absurd rfl hx

theorem notModified_eq_true_iff (env : Env) (r : Request) (lastModified : Time) :
    notModified env r lastModified = true ↔
      r.Header.Get "if-modified-since" ≠ "" ∧
        ∃ t, env.Parse (r.Header.Get "if-modified-since") = some t ∧ t ≤ lastModified := by
  unfold notModified
  by_cases hraw : r.Header.Get "if-modified-since" = ""
  · simp [hraw]
  · cases hp : env.Parse (r.Header.Get "if-modified-since") with
    | none => simp [hraw, hp]
    | some t =>
      simp only [ne_eq, hraw, hp, not_false_eq_true, if_true, Bool.or_eq_true,
        decide_eq_true_eq, true_and, Option.some.injEq, exists_eq_left']
      exact le_iff_eq_or_lt.symm

theorem ServeHTTP_proceeds {σ : Type} (h : handler) (env : Env) (W : ResponseWriter σ)
    (fuel : Nat) (conn : σ) (r : Request) (out : GetObjectOutput) (hf : Found h env r out)
    (hn : answers304 env r out = false) :
    ServeHTTP h env W fuel conn r =
      deferClose (relay W fuel (World.staged env out (World.fetchedOnce h conn r)) out.Body) := by
  rw [ServeHTTP_found h env W fuel conn r out hf, serveObject_eq, hn]
  simp

theorem ServeHTTP_streams {σ : Type} (h : handler) (env : Env) (W : ResponseWriter σ)
    (fuel : Nat) (conn : σ) (r : Request) (out : GetObjectOutput) (hf : Found h env r out)
    (hn : answers304 env r out = false) (hW : W.Accepting)
    (hc : out.Body.endsClean = true) (hfuel : out.Body.weight + readBufLen + 1 < fuel) :
    (ServeHTTP h env W fuel conn r).returned = true ∧
      (ServeHTTP h env W fuel conn r).status = some 200 ∧
      (ServeHTTP h env W fuel conn r).wire = out.Body.bytes ∧
      (ServeHTTP h env W fuel conn r).stdout = [] ∧
      (ServeHTTP h env W fuel conn r).closed = 1 := by
  obtain ⟨hs0, hw0, _, hc0, ho0, _, _⟩ :=
    World.staged_rest env out (World.fetchedOnce h conn r)
  obtain ⟨w1, e1, hw1, ho1, hs1⟩ :=
    relay_accepting W hW fuel (World.staged env out (World.fetchedOnce h conn r)) out.Body
      hc hfuel
  obtain ⟨_, _, hcl, _⟩ :=
    relay_frame W fuel (World.staged env out (World.fetchedOnce h conn r)) out.Body
  rw [e1] at hcl
  rw [ServeHTTP_proceeds h env W fuel conn r out hf hn, e1]
  simp only [deferClose] at hcl ⊢
  refine ⟨trivial, ?_, ?_, ?_, ?_⟩
  · rw [hs1, hs0]
    rfl
  · rw [hw1, hw0]
    rfl
  · rw [ho1, ho0]
    rfl
  · rw [hcl, hc0]
    rfl

theorem ServeHTTP_header {σ : Type} (h : handler) (env : Env) (W : ResponseWriter σ)
    (fuel : Nat) (conn : σ) (r : Request) (out : GetObjectOutput) (hf : Found h env r out) :
    (ServeHTTP h env W fuel conn r).header =
      (World.staged env out (World.fetchedOnce h conn r)).header := by
  rw [ServeHTTP_found h env W fuel conn r out hf]
  obtain ⟨_, d2, _⟩ := deferClose_rest (serveObject env W fuel r out (World.fetchedOnce h conn r))
  rw [d2]
  exact (serveObject_frame env W fuel r out (World.fetchedOnce h conn r)).1

theorem fullWriter_accepting : fullWriter.Accepting := by
  intro c p
  refine ⟨rfl, ?_⟩
  intro hp
  cases p with
  | nil => exact absurd rfl hp
  | cons a t => simp [fullWriter]

theorem oneByteWriter_accepting : oneByteWriter.Accepting := by
  intro c p
  refine ⟨rfl, ?_⟩
  intro hp
  cases p with
  | nil => exact absurd rfl hp
  | cons a t => simp [oneByteWriter]

theorem brokenWriter_progressing : brokenWriter.Progressing := by
  intro c p he hp
  cases p with
  | nil => exact absurd rfl hp
  | cons a t =>
    simp only [brokenWriter, List.length_cons] at he ⊢
    by_cases hlt : t.length + 1 ≤ c
    · simp [hlt]
    · simp [hlt] at he

theorem sampleEnv_found (objs : List (String × GetObjectOutput)) (r : Request)
    (out : GetObjectOutput) (hp : r.Path ≠ "/") (hl : objs.lookup r.Path = some out) :
    Found sampleHandler (sampleEnv objs) r out := by
  refine ⟨hp, rfl, ?_⟩
  simp [sampleEnv, sampleStore, hl]

theorem answers304_eq_false (env : Env) (r : Request) (out : GetObjectOutput)
    (hc : r.Header.Get "if-modified-since" = "" ∨
      env.Parse (r.Header.Get "if-modified-since") = none ∨ out.LastModified = none) :
    answers304 env r out = false := by
  unfold answers304
  cases hl : out.LastModified with
  | none => rfl
  | some t =>
    simp only
    cases hnm : notModified env r t with
    | false => rfl
    | true =>
      obtain ⟨hraw, t1, hp, _⟩ := (notModified_eq_true_iff env r t).1 hnm
      rcases hc with h1 | h2 | h3
      · exact absurd h1 hraw
      · rw [hp] at h2
        cases h2
      · rw [hl] at h3
        cases h3

theorem ServeHTTP_status_proceeding {σ : Type} (h : handler) (env : Env)
    (W : ResponseWriter σ) (fuel : Nat) (conn : σ) (r : Request) (out : GetObjectOutput)
    (hf : Found h env r out) (hn : answers304 env r out = false) :
    (ServeHTTP h env W fuel conn r).status = none ∨
      (ServeHTTP h env W fuel conn r).status = some 200 := by
  rw [ServeHTTP_proceeds h env W fuel conn r out hf hn]
  obtain ⟨d1, _⟩ :=
    deferClose_rest (relay W fuel (World.staged env out (World.fetchedOnce h conn r)) out.Body)
  obtain ⟨hs0, _⟩ := World.staged_rest env out (World.fetchedOnce h conn r)
  obtain ⟨_, _, _, _, hst⟩ :=
    relay_frame W fuel (World.staged env out (World.fetchedOnce h conn r)) out.Body
  rw [d1]
  rcases hst with hst | ⟨_, hst⟩
  · exact Or.inl (hst.trans hs0)
  · exact Or.inr hst

/-! ## The claims -/

/-- C1, evaluated on the code: the object was last modified at 2023-01-01T00:00:00Z and
the request carries `if-modified-since` one second later, so the client copy is current and
the claim asks for 304 without a body. The handler answers 200 and sends the whole body. -/
theorem ServeHTTP_since_later_sends_body :
    sampleObject.LastModified = some 1672531200 ∧
      sampleParse "Sun, 01 Jan 2023 00:00:01 GMT" = some 1672531201 ∧
      (ServeHTTP sampleHandler (sampleEnv [("/a", sampleObject)]) fullWriter 4 ()
        (conditionalGet "/a" "Sun, 01 Jan 2023 00:00:01 GMT")).status = some 200 ∧
      (ServeHTTP sampleHandler (sampleEnv [("/a", sampleObject)]) fullWriter 4 ()
        (conditionalGet "/a" "Sun, 01 Jan 2023 00:00:01 GMT")).wire
          = [104, 101, 108, 108, 111] ∧
      (ServeHTTP sampleHandler (sampleEnv [("/a", sampleObject)]) fullWriter 4 ()
        (conditionalGet "/a" "Sun, 01 Jan 2023 00:00:01 GMT")).returned = true := by
  decide

/-- C2, evaluated on the code: the object was last modified at 2023-01-01T00:00:00Z and
the request carries `if-modified-since` one second earlier, so the object changed after the
client copy and the claim asks for 200 with the body. The handler answers 304 and sends
nothing. -/
theorem ServeHTTP_since_earlier_sends_304 :
    sampleObject.LastModified = some 1672531200 ∧
      sampleParse "Sat, 31 Dec 2022 23:59:59 GMT" = some 1672531199 ∧
      (ServeHTTP sampleHandler (sampleEnv [("/a", sampleObject)]) fullWriter 4 ()
        (conditionalGet "/a" "Sat, 31 Dec 2022 23:59:59 GMT")).status = some 304 ∧
      (ServeHTTP sampleHandler (sampleEnv [("/a", sampleObject)]) fullWriter 4 ()
        (conditionalGet "/a" "Sat, 31 Dec 2022 23:59:59 GMT")).wire = [] ∧
      (ServeHTTP sampleHandler (sampleEnv [("/a", sampleObject)]) fullWriter 4 ()
        (conditionalGet "/a" "Sat, 31 Dec 2022 23:59:59 GMT")).returned = true := by
  decide

/-- C4: for every object the handler reaches, the `content-disposition` response header
is the object's own disposition when it has one; otherwise it is `attachment` when the
content length is known and at least 52428800; otherwise the header is absent. This
holds at every point of the run, whatever the budget. -/
theorem ServeHTTP_contentDisposition {σ : Type} (h : handler) (env : Env)
    (W : ResponseWriter σ) (fuel : Nat) (conn : σ) (r : Request) (out : GetObjectOutput)
    (hf : Found h env r out) :
    (ServeHTTP h env W fuel conn r).header.lookup "content-disposition" =
      match out.ContentDisposition with
      | some cd => some cd
      | none =>
        match out.ContentLength with
        | some n => if n ≥ 52428800 then some "attachment" else none
        | none => none := by
  rw [ServeHTTP_header h env W fuel conn r out hf]
  exact (World.staged_lookup env out (World.fetchedOnce h conn r) rfl).2.2.1

/-- C4 applied at the threshold: an object of exactly 52428800 bytes without a disposition
of its own is served with `content-disposition: attachment`, one of 52428799 bytes without
the header. -/
theorem ServeHTTP_contentDisposition_witness :
    Found sampleHandler
        (sampleEnv [("/big", { sampleObject with ContentLength := some 52428800 })])
        (plainGet "/big") { sampleObject with ContentLength := some 52428800 } ∧
      (ServeHTTP sampleHandler
        (sampleEnv [("/big", { sampleObject with ContentLength := some 52428800 })])
        fullWriter 4 () (plainGet "/big")).header.lookup "content-disposition" =
          some "attachment" ∧
      (ServeHTTP sampleHandler
        (sampleEnv [("/big", { sampleObject with ContentLength := some 52428799 })])
        fullWriter 4 () (plainGet "/big")).header.lookup "content-disposition" = none :=
  ⟨sampleEnv_found _ _ _ (by decide) rfl,
    ServeHTTP_contentDisposition sampleHandler
      (sampleEnv [("/big", { sampleObject with ContentLength := some 52428800 })])
      fullWriter 4 () (plainGet "/big") { sampleObject with ContentLength := some 52428800 }
      (sampleEnv_found _ _ _ (by decide) rfl),
    ServeHTTP_contentDisposition sampleHandler
      (sampleEnv [("/big", { sampleObject with ContentLength := some 52428799 })])
      fullWriter 4 () (plainGet "/big") { sampleObject with ContentLength := some 52428799 }
      (sampleEnv_found _ _ _ (by decide) rfl)⟩

/-- C6, evaluated on the code: `GetObject` fails with `AccessDenied`. The claim asks for an
explicit failure status; the handler prints the error and returns without writing any
status, so the client sees 200 with an empty body. -/
theorem ServeHTTP_fetchFailed_writes_no_status :
    (sampleEnv []).GetObject "bucket" "/forbidden" =
        Except.error { Code := some "AccessDenied", text := "AccessDenied: Access Denied" } ∧
      (ServeHTTP sampleHandler (sampleEnv []) fullWriter 4 () (plainGet "/forbidden")).status
        = none ∧
      (ServeHTTP sampleHandler (sampleEnv []) fullWriter 4 ()
        (plainGet "/forbidden")).clientStatus = 200 ∧
      (ServeHTTP sampleHandler (sampleEnv []) fullWriter 4 () (plainGet "/forbidden")).wire
        = [] ∧
      (ServeHTTP sampleHandler (sampleEnv []) fullWriter 4 ()
        (plainGet "/forbidden")).returned = true := by
  refine ⟨rfl, ?_⟩
  decide

/-- C7: when the path is not the root, the session is created and `GetObject` fails with
code `NoSuchKey`, the handler writes status 404, sends no body byte, sets no header,
closes nothing and returns. -/
theorem ServeHTTP_noSuchKey {σ : Type} (h : handler) (env : Env) (W : ResponseWriter σ)
    (fuel : Nat) (conn : σ) (r : Request) (err : FetchError) (hp : r.Path ≠ "/")
    (hs : env.NewSession h.awsEndpoint = none)
    (hg : env.GetObject h.awsBucket r.Path = Except.error err)
    (hc : err.Code = some "NoSuchKey") :
    (ServeHTTP h env W fuel conn r).status = some 404 ∧
      (ServeHTTP h env W fuel conn r).wire = [] ∧
      (ServeHTTP h env W fuel conn r).header = [] ∧
      (ServeHTTP h env W fuel conn r).closed = 0 ∧
      (ServeHTTP h env W fuel conn r).returned = true := by
  rw [ServeHTTP_fetchError h env W fuel conn r err hp hs hg]
  simp [hc, ErrCodeNoSuchKey, World.WriteHeader, World.fetchedOnce, World.fresh,
    StatusNotFound]

/-- C7 applied: a key the sample store does not hold. -/
theorem ServeHTTP_noSuchKey_witness :
    (plainGet "/missing").Path ≠ "/" ∧
      (ServeHTTP sampleHandler (sampleEnv []) fullWriter 4 () (plainGet "/missing")).status
        = some 404 ∧
      (ServeHTTP sampleHandler (sampleEnv []) fullWriter 4 () (plainGet "/missing")).wire
        = [] ∧
      (ServeHTTP sampleHandler (sampleEnv []) fullWriter 4 () (plainGet "/missing")).header
        = [] ∧
      (ServeHTTP sampleHandler (sampleEnv []) fullWriter 4 () (plainGet "/missing")).closed
        = 0 ∧
      (ServeHTTP sampleHandler (sampleEnv []) fullWriter 4 ()
        (plainGet "/missing")).returned = true :=
  ⟨by decide,
    ServeHTTP_noSuchKey sampleHandler (sampleEnv []) fullWriter 4 () (plainGet "/missing")
      { Code := some ErrCodeNoSuchKey, text := "NoSuchKey: The specified key does not exist." }
      (by decide) rfl rfl rfl⟩

/-- C8 as stated fails: the path `/a` is not the root, yet when `session.NewSession`
returns an error the handler returns before `GetObject`, so no fetch is made. -/
theorem ServeHTTP_no_session_no_fetch :
    (plainGet "/a").Path ≠ "/" ∧
      (ServeHTTP sampleHandler (noSessionEnv [("/a", sampleObject)]) fullWriter 4 ()
        (plainGet "/a")).fetched = [] ∧
      (ServeHTTP sampleHandler (noSessionEnv [("/a", sampleObject)]) fullWriter 4 ()
        (plainGet "/a")).returned = true := by
  decide

/-- C8 amended: for the root path the handler writes 404, sends no body byte and makes no
fetch; for any other path, when the session is created the handler makes exactly one
fetch, in the configured bucket with the key equal to the path as received, and when the
session cannot be created it makes no fetch. -/
theorem ServeHTTP_routing {σ : Type} (h : handler) (env : Env) (W : ResponseWriter σ)
    (fuel : Nat) (conn : σ) (r : Request) :
    (r.Path = "/" →
      (ServeHTTP h env W fuel conn r).status = some 404 ∧
        (ServeHTTP h env W fuel conn r).wire = [] ∧
        (ServeHTTP h env W fuel conn r).fetched = [] ∧
        (ServeHTTP h env W fuel conn r).returned = true) ∧
      (r.Path ≠ "/" → env.NewSession h.awsEndpoint = none →
        (ServeHTTP h env W fuel conn r).fetched = [(h.awsBucket, r.Path)]) ∧
      (r.Path ≠ "/" → env.NewSession h.awsEndpoint ≠ none →
        (ServeHTTP h env W fuel conn r).fetched = []) := by
  refine ⟨?_, ?_, ?_⟩
  · intro hp
    rw [ServeHTTP_root h env W fuel conn r hp]
    simp [World.WriteHeader, World.fresh, StatusNotFound]
  · intro hp hs
    cases hg : env.GetObject h.awsBucket r.Path with
    | error err =>
      rw [ServeHTTP_fetchError h env W fuel conn r err hp hs hg]
      split <;> simp [World.WriteHeader, World.Printf, World.fetchedOnce, World.fresh]
    | ok out =>
      rw [ServeHTTP_found h env W fuel conn r out ⟨hp, hs, hg⟩]
      obtain ⟨_, _, _, d4, _⟩ :=
        deferClose_rest (serveObject env W fuel r out (World.fetchedOnce h conn r))
      rw [d4]
      exact (serveObject_frame env W fuel r out (World.fetchedOnce h conn r)).2.1
  · intro hp hs
    cases hn : env.NewSession h.awsEndpoint with
    | none => exact absurd hn hs
    | some msg =>
      rw [ServeHTTP_noSession h env W fuel conn r msg hp hn]
      simp [World.Printf, World.fresh]

/-- C8 amended, applied: the root path, a path served with a session, and the same path
when no session can be created. -/
theorem ServeHTTP_routing_witness :
    (ServeHTTP sampleHandler (sampleEnv [("/a", sampleObject)]) fullWriter 4 ()
        (plainGet "/")).fetched = [] ∧
      (ServeHTTP sampleHandler (sampleEnv [("/a", sampleObject)]) fullWriter 4 ()
        (plainGet "/A b/%2e/")).fetched = [("bucket", "/A b/%2e/")] ∧
      (ServeHTTP sampleHandler (noSessionEnv [("/a", sampleObject)]) fullWriter 4 ()
        (plainGet "/a")).fetched = [] :=
  ⟨((ServeHTTP_routing sampleHandler (sampleEnv [("/a", sampleObject)]) fullWriter 4 ()
      (plainGet "/")).1 rfl).2.2.1,
    (ServeHTTP_routing sampleHandler (sampleEnv [("/a", sampleObject)]) fullWriter 4 ()
      (plainGet "/A b/%2e/")).2.1 (by decide) rfl,
    (ServeHTTP_routing sampleHandler (noSessionEnv [("/a", sampleObject)]) fullWriter 4 ()
      (plainGet "/a")).2.2 (by decide) (by decide)⟩

/-- C3: for a writer that never returns an error and takes at least one byte of every
non-empty write, and a body that delivers its bytes in any segmentation and then ends
with end of input and no read error, a large enough iteration budget exists such that the
loop is left through its final `break`, the bytes accepted by the writer are exactly the
bytes of the body appended in order to what was accepted before, and nothing is printed.
In the handler, for every request that reaches the loop, the handler then returns and the
bytes accepted are exactly the bytes of the body. -/
theorem relay_delivers_body {σ : Type} (W : ResponseWriter σ) (hW : W.Accepting)
    (body : Body) (hc : body.endsClean = true) :
    ∃ N, ∀ fuel, N ≤ fuel →
      (∀ w : World σ, ∃ w1, relay W fuel w body = (Ctl.brk, w1) ∧
        w1.wire = w.wire ++ body.bytes ∧ w1.stdout = w.stdout) ∧
      (∀ (h : handler) (env : Env) (conn : σ) (r : Request) (out : GetObjectOutput),
        Found h env r out → out.Body = body → answers304 env r out = false →
          (ServeHTTP h env W fuel conn r).returned = true ∧
            (ServeHTTP h env W fuel conn r).wire = body.bytes ∧
            (ServeHTTP h env W fuel conn r).stdout = []) := by
  refine ⟨body.weight + readBufLen + 2, ?_⟩
  intro fuel hfuel
  refine ⟨?_, ?_⟩
  · intro w
    obtain ⟨w1, e1, hw1, ho1, _⟩ := relay_accepting W hW fuel w body hc (by omega)
    exact ⟨w1, e1, hw1, ho1⟩
  · intro h env conn r out hf hb hn
    subst hb
    obtain ⟨h1, _, h3, h4, _⟩ :=
      ServeHTTP_streams h env W fuel conn r out hf hn hW hc (by omega)
    exact ⟨h1, h3, h4⟩

/-- C3 applied: the writer that accepts one byte per call relays the five bytes of the
sample body, delivered in two reads and a bare end of input. -/
theorem relay_delivers_body_witness :
    oneByteWriter.Accepting ∧ sampleObject.Body.endsClean = true ∧
      sampleObject.Body.bytes = [104, 101, 108, 108, 111] ∧
      (relay oneByteWriter 4 (World.fresh ()) sampleObject.Body).2.wire
        = [104, 101, 108, 108, 111] ∧
      ∃ N, ∀ fuel, N ≤ fuel →
        (∀ w : World Unit, ∃ w1, relay oneByteWriter fuel w sampleObject.Body = (Ctl.brk, w1) ∧
          w1.wire = w.wire ++ sampleObject.Body.bytes ∧ w1.stdout = w.stdout) ∧
        (∀ (h : handler) (env : Env) (conn : Unit) (r : Request) (out : GetObjectOutput),
          Found h env r out → out.Body = sampleObject.Body → answers304 env r out = false →
            (ServeHTTP h env oneByteWriter fuel conn r).returned = true ∧
              (ServeHTTP h env oneByteWriter fuel conn r).wire = sampleObject.Body.bytes ∧
              (ServeHTTP h env oneByteWriter fuel conn r).stdout = []) :=
  ⟨oneByteWriter_accepting, by decide, by decide, by decide,
    relay_delivers_body oneByteWriter oneByteWriter_accepting sampleObject.Body (by decide)⟩

/-- C5: for an object the handler reaches, when the `if-modified-since` header is absent
or empty, or does not parse as an HTTP date, or the object has no `LastModified`, the
handler does exactly what it does for the same request without headers; the status is
never 304 and the client sees 200; and with a writer that accepts its writes and a body
that ends cleanly the handler returns with status 200 and the whole body sent. -/
theorem ServeHTTP_unconditional {σ : Type} (h : handler) (env : Env) (W : ResponseWriter σ)
    (conn : σ) (r : Request) (out : GetObjectOutput) (hf : Found h env r out)
    (hc : r.Header.Get "if-modified-since" = "" ∨
      env.Parse (r.Header.Get "if-modified-since") = none ∨ out.LastModified = none) :
    (∀ fuel, ServeHTTP h env W fuel conn r =
        ServeHTTP h env W fuel conn { r with Header := [] }) ∧
      (∀ fuel, (ServeHTTP h env W fuel conn r).status ≠ some 304 ∧
        (ServeHTTP h env W fuel conn r).clientStatus = 200) ∧
      (W.Accepting → out.Body.endsClean = true → ∃ N, ∀ fuel, N ≤ fuel →
        (ServeHTTP h env W fuel conn r).returned = true ∧
          (ServeHTTP h env W fuel conn r).status = some 200 ∧
          (ServeHTTP h env W fuel conn r).wire = out.Body.bytes) := by
  have hn := answers304_eq_false env r out hc
  refine ⟨?_, ?_, ?_⟩
  · intro fuel
    have hf2 : Found h env { r with Header := [] } out := hf
    have hn2 : answers304 env { r with Header := [] } out = false :=
      answers304_eq_false env { r with Header := [] } out (Or.inl rfl)
    rw [ServeHTTP_proceeds h env W fuel conn r out hf hn,
      ServeHTTP_proceeds h env W fuel conn { r with Header := [] } out hf2 hn2]
    rfl
  · intro fuel
    rcases ServeHTTP_status_proceeding h env W fuel conn r out hf hn with hs | hs
    · simp [World.clientStatus, hs, StatusOK]
    · simp [World.clientStatus, hs]
  · intro hW hcl
    refine ⟨out.Body.weight + readBufLen + 2, ?_⟩
    intro fuel hfuel
    obtain ⟨h1, h2, h3, _⟩ :=
      ServeHTTP_streams h env W fuel conn r out hf hn hW hcl (by omega)
    exact ⟨h1, h2, h3⟩

/-- C5 applied: a header value that is not an HTTP date. -/
theorem ServeHTTP_unconditional_witness :
    sampleParse "yesterday" = none ∧
      (ServeHTTP sampleHandler (sampleEnv [("/a", sampleObject)]) fullWriter 4 ()
        (conditionalGet "/a" "yesterday")).status = some 200 ∧
      (ServeHTTP sampleHandler (sampleEnv [("/a", sampleObject)]) fullWriter 4 ()
        (conditionalGet "/a" "yesterday")).wire = [104, 101, 108, 108, 111] ∧
      (∀ fuel, ServeHTTP sampleHandler (sampleEnv [("/a", sampleObject)]) fullWriter fuel ()
          (conditionalGet "/a" "yesterday") =
        ServeHTTP sampleHandler (sampleEnv [("/a", sampleObject)]) fullWriter fuel ()
          (plainGet "/a")) ∧
      (∀ fuel, (ServeHTTP sampleHandler (sampleEnv [("/a", sampleObject)]) fullWriter fuel ()
          (conditionalGet "/a" "yesterday")).status ≠ some 304 ∧
        (ServeHTTP sampleHandler (sampleEnv [("/a", sampleObject)]) fullWriter fuel ()
          (conditionalGet "/a" "yesterday")).clientStatus = 200) :=
  ⟨by decide, by decide, by decide,
    (ServeHTTP_unconditional sampleHandler (sampleEnv [("/a", sampleObject)]) fullWriter ()
      (conditionalGet "/a" "yesterday") sampleObject
      (sampleEnv_found _ _ _ (by decide) rfl) (Or.inr (Or.inl (by decide)))).1,
    (ServeHTTP_unconditional sampleHandler (sampleEnv [("/a", sampleObject)]) fullWriter ()
      (conditionalGet "/a" "yesterday") sampleObject
      (sampleEnv_found _ _ _ (by decide) rfl) (Or.inr (Or.inl (by decide)))).2.1⟩

/-- C9: for every object the handler reaches, `content-type` is present exactly when the
object has a content type and is that value; `content-length` is present exactly when the
object has a content length `n` and is the decimal numeral of `n`; `last-modified` is
present exactly when the object has a timestamp and is its HTTP date. For the example
object served under `/images/logo.png` without an `if-modified-since` header the handler
returns status 200 with `content-type: image/png`, `content-length: 2048`, and the 2048
bytes of the body. -/
theorem ServeHTTP_objectHeaders :
    (∀ {σ : Type} (h : handler) (env : Env) (W : ResponseWriter σ) (fuel : Nat) (conn : σ)
        (r : Request) (out : GetObjectOutput), Found h env r out →
        (ServeHTTP h env W fuel conn r).header.lookup "content-type" = out.ContentType ∧
          (ServeHTTP h env W fuel conn r).header.lookup "content-length" =
            out.ContentLength.map Itoa ∧
          (ServeHTTP h env W fuel conn r).header.lookup "last-modified" =
            out.LastModified.map env.Format) ∧
      (∀ n : Nat, Itoa (Int.ofNat n) = String.mk (Nat.toDigits 10 n)) ∧
      (∀ n : Nat, Itoa (Int.negSucc n) = "-" ++ String.mk (Nat.toDigits 10 (n + 1))) ∧
      ((ServeHTTP sampleHandler (sampleEnv [("/images/logo.png", logoObject)]) fullWriter 20000 ()
          (plainGet "/images/logo.png")).status = some 200 ∧
        (ServeHTTP sampleHandler (sampleEnv [("/images/logo.png", logoObject)]) fullWriter 20000 ()
          (plainGet "/images/logo.png")).header.lookup "content-type" = some "image/png" ∧
        (ServeHTTP sampleHandler (sampleEnv [("/images/logo.png", logoObject)]) fullWriter 20000 ()
          (plainGet "/images/logo.png")).header.lookup "content-length" = some "2048" ∧
        (ServeHTTP sampleHandler (sampleEnv [("/images/logo.png", logoObject)]) fullWriter 20000 ()
          (plainGet "/images/logo.png")).header.lookup "last-modified" =
            some "Sun, 01 Jan 2023 00:00:00 GMT" ∧
        (ServeHTTP sampleHandler (sampleEnv [("/images/logo.png", logoObject)]) fullWriter 20000 ()
          (plainGet "/images/logo.png")).wire = List.replicate 2048 7 ∧
        (ServeHTTP sampleHandler (sampleEnv [("/images/logo.png", logoObject)]) fullWriter 20000 ()
          (plainGet "/images/logo.png")).returned = true) := by
  refine ⟨?_, ?_, ?_, ?_⟩
  · intro σ h env W fuel conn r out hf
    rw [ServeHTTP_header h env W fuel conn r out hf]
    obtain ⟨h1, h2, _, h4⟩ := World.staged_lookup env out (World.fetchedOnce h conn r) rfl
    exact ⟨h1, h2, h4⟩
  · intro n
    rfl
  · intro n
    rfl
  · have hf : Found sampleHandler (sampleEnv [("/images/logo.png", logoObject)])
        (plainGet "/images/logo.png") logoObject := sampleEnv_found _ _ _ (by decide) rfl
    have hb : logoObject.Body = [⟨List.replicate 2048 7, some ReadErr.EOF⟩] := rfl
    have hfuel : logoObject.Body.weight + readBufLen + 1 < 20000 := by
      rw [hb, Body.weight_single, List.length_replicate]
      decide
    obtain ⟨h1, h2, h3, _⟩ :=
      ServeHTTP_streams sampleHandler (sampleEnv [("/images/logo.png", logoObject)])
        fullWriter 20000 () (plainGet "/images/logo.png") logoObject hf rfl
        fullWriter_accepting rfl hfuel
    obtain ⟨k1, k2, _, k4⟩ :=
      World.staged_lookup (sampleEnv [("/images/logo.png", logoObject)]) logoObject
        (World.fetchedOnce sampleHandler () (plainGet "/images/logo.png")) rfl
    rw [ServeHTTP_header sampleHandler (sampleEnv [("/images/logo.png", logoObject)])
      fullWriter 20000 () (plainGet "/images/logo.png") logoObject hf]
    refine ⟨h2, k1, ?_, ?_, ?_, h1⟩
    · rw [k2]
      decide
    · rw [k4]
      decide
    · rw [h3, hb, Body.bytes_single]

/-- C9 applied: the sample object, whose content length is 5. -/
theorem ServeHTTP_objectHeaders_witness :
    (ServeHTTP sampleHandler (sampleEnv [("/a", sampleObject)]) oneByteWriter 3 ()
        (plainGet "/a")).header.lookup "content-type" = some "text/plain" ∧
      (ServeHTTP sampleHandler (sampleEnv [("/a", sampleObject)]) oneByteWriter 3 ()
        (plainGet "/a")).header.lookup "content-length" = some "5" ∧
      (ServeHTTP sampleHandler (sampleEnv [("/a", sampleObject)]) oneByteWriter 3 ()
        (plainGet "/a")).header.lookup "last-modified" =
          some "Sun, 01 Jan 2023 00:00:00 GMT" :=
  ServeHTTP_objectHeaders.1 sampleHandler (sampleEnv [("/a", sampleObject)]) oneByteWriter 3
    () (plainGet "/a") sampleObject (sampleEnv_found _ _ _ (by decide) rfl)

/-- C10: when the fetch succeeds, the body is closed exactly once whenever the handler has
returned, whichever way it left (304, end of the loop, read error, write error), and not
at all while it is still in the loop; when the fetch does not succeed the handler returns
and the body is never closed; and under a writer that takes at least one byte of each
non-empty write it does not reject, the handler returns for every large enough budget. -/
theorem ServeHTTP_closes_body {σ : Type} (h : handler) (env : Env) (W : ResponseWriter σ)
    (conn : σ) (r : Request) :
    (∀ out, Found h env r out → ∀ fuel,
        ((ServeHTTP h env W fuel conn r).returned = true →
          (ServeHTTP h env W fuel conn r).closed = 1) ∧
        ((ServeHTTP h env W fuel conn r).returned = false →
          (ServeHTTP h env W fuel conn r).closed = 0)) ∧
      ((∀ out, ¬ Found h env r out) → ∀ fuel,
        (ServeHTTP h env W fuel conn r).returned = true ∧
          (ServeHTTP h env W fuel conn r).closed = 0) ∧
      (W.Progressing → ∃ N, ∀ fuel, N ≤ fuel →
        (ServeHTTP h env W fuel conn r).returned = true) := by
  have hnot : ∀ fuel, (∀ out, ¬ Found h env r out) →
      (ServeHTTP h env W fuel conn r).returned = true ∧
        (ServeHTTP h env W fuel conn r).closed = 0 := by
    intro fuel hno
    by_cases hp : r.Path = "/"
    · rw [ServeHTTP_root h env W fuel conn r hp]
      simp [World.WriteHeader, World.fresh]
    · cases hs : env.NewSession h.awsEndpoint with
      | some msg =>
        rw [ServeHTTP_noSession h env W fuel conn r msg hp hs]
        simp [World.Printf, World.fresh]
      | none =>
        cases hg : env.GetObject h.awsBucket r.Path with
        | ok out => exact absurd ⟨hp, hs, hg⟩ (hno out)
        | error err =>
          rw [ServeHTTP_fetchError h env W fuel conn r err hp hs hg]
          split <;> simp [World.WriteHeader, World.Printf, World.fetchedOnce, World.fresh]
  refine ⟨?_, fun hno fuel => hnot fuel hno, ?_⟩
  · intro out hf fuel
    rw [ServeHTTP_found h env W fuel conn r out hf]
    obtain ⟨_, _, hc, hr⟩ := serveObject_frame env W fuel r out (World.fetchedOnce h conn r)
    generalize serveObject env W fuel r out (World.fetchedOnce h conn r) = x at hc hr
    obtain ⟨c, w⟩ := x
    simp only [World.fetchedOnce, World.fresh] at hc hr
    cases c <;> simp [deferClose, hc, hr]
  · intro hW
    by_cases hfound : ∃ out, Found h env r out
    · obtain ⟨out, hf⟩ := hfound
      refine ⟨out.Body.weight + readBufLen + 2, ?_⟩
      intro fuel hfuel
      rw [ServeHTTP_found h env W fuel conn r out hf]
      refine (deferClose_left _ ?_).2
      rw [serveObject_eq]
      split
      · simp
      · exact relay_progressing W hW fuel _ out.Body (by omega)
    · refine ⟨0, ?_⟩
      intro fuel _
      exact (hnot fuel (fun out hf => hfound ⟨out, hf⟩)).1

/-- C10 applied: a connection that breaks after four bytes. The handler leaves through
the write error, having closed the body once; a missing key closes nothing. -/
theorem ServeHTTP_closes_body_witness :
    (ServeHTTP sampleHandler (sampleEnv [("/a", sampleObject)]) brokenWriter 4 4
        (plainGet "/a")).stdout = ["Error writing: broken pipe\n"] ∧
      (ServeHTTP sampleHandler (sampleEnv [("/a", sampleObject)]) brokenWriter 4 4
        (plainGet "/a")).returned = true ∧
      (ServeHTTP sampleHandler (sampleEnv [("/a", sampleObject)]) brokenWriter 4 4
        (plainGet "/a")).closed = 1 ∧
      (ServeHTTP sampleHandler (sampleEnv [("/a", sampleObject)]) brokenWriter 1 4
        (plainGet "/a")).closed = 0 ∧
      (∃ N, ∀ fuel, N ≤ fuel →
        (ServeHTTP sampleHandler (sampleEnv [("/a", sampleObject)]) brokenWriter fuel 4
          (plainGet "/a")).returned = true) :=
  ⟨by decide, by decide,
    ((ServeHTTP_closes_body sampleHandler (sampleEnv [("/a", sampleObject)]) brokenWriter 4
      (plainGet "/a")).1 sampleObject (sampleEnv_found _ _ _ (by decide) rfl) 4).1 (by decide),
    ((ServeHTTP_closes_body sampleHandler (sampleEnv [("/a", sampleObject)]) brokenWriter 4
      (plainGet "/a")).1 sampleObject (sampleEnv_found _ _ _ (by decide) rfl) 1).2 (by decide),
    (ServeHTTP_closes_body sampleHandler (sampleEnv [("/a", sampleObject)]) brokenWriter 4
      (plainGet "/a")).2.2 brokenWriter_progressing⟩

end S3Proxy
